import Mathlib

/-!
Verification development for the Global-Energy-Access-Analyzer repository.

The repository is a Python/SQLite application.  The analytical query layer
lives in `backend.py` and the storage helpers in `db_designer.py`.  This file
shallowly embeds those functions:

* SQLite values stored in the three canonical tables (`Countries`,
  `ElectricityAccess`, `PopulationData`, created by `db_designer.init_db`) are
  modelled as `ℤ` / `Option ℤ` / `Option String` fields of explicit row
  structures; SQL `NULL` is `Option.none`.
* Python floats are modelled as exact rationals (`ℚ`).  All numbers the
  queries manipulate are far below 2^53, where float arithmetic on integers
  is exact, and no claim depends on float rounding error.
* `round(x, 2)` is modelled as `round2` below via Mathlib's `round`
  (round-half-up).  Python uses round-half-even; no value appearing in any
  claim or counterexample is a tie at the third decimal, so the difference
  is unobservable here.
* Raw rows reaching the normalizer in `backend.get_electricity_records` are
  lists of dynamically typed Python values, modelled by `PyVal`.
-/

/-- A dynamically typed Python value as it can appear in a raw SQLite row:
`None`, an integer, or a string.  (Floats in raw rows are not needed by any
claim; numeric strings cover the string-encoded-number cases.) -/
inductive PyVal where
  | none
  | int (n : ℤ)
  | str (s : String)
deriving DecidableEq, Repr

/-- `listIsPrefix n h` decides whether `n` is a prefix of `h`. -/
def listIsPrefix : List Char → List Char → Bool
  | [], _ => true
  | _ :: _, [] => false
  | a :: as, b :: bs => a == b && listIsPrefix as bs

/-- `containsAux n h` decides whether `n` is a prefix of some suffix of
`h`, i.e. a contiguous substring of it. -/
def containsAux (needle : List Char) : List Char → Bool
  | [] => listIsPrefix needle []
  | c :: rest => listIsPrefix needle (c :: rest) || containsAux needle rest

/-- Python's substring test `needle in hay`. -/
def strContains (hay needle : String) : Bool :=
  containsAux needle.data hay.data

/-- The ASCII whitespace Python's `str.strip()` removes (the data never
carries the more exotic Unicode whitespace also stripped by CPython). -/
def isPyWhitespace (c : Char) : Bool :=
  c == ' ' || c == '\t' || c == '\n' || c == '\r'

/-- Python's `str.strip()`. -/
def pyStrip (s : String) : String :=
  String.mk (((s.data.dropWhile isPyWhitespace).reverse.dropWhile
    isPyWhitespace).reverse)

/-- Python's `str.lower()` on the ASCII data at hand. -/
def pyLower (s : String) : String :=
  String.mk (s.data.map Char.toLower)

/-- `backend.AGGREGATE_WORDS`: the fixed keyword set (a Python `set`; listed
here in source order — only membership matters). -/
def AGGREGATE_WORDS : List String :=
  ["world", "income", "ida", "ibrd", "oecd", "region", "regions",
   "asia", "africa", "europe", "america", "caribbean", "pacific",
   "blend", "only", "total", "demographic", "fragile", "hipc",
   "high income", "low income", "middle income", "small states",
   "least", "developed", "developing"]

/-- `backend._is_aggregate`: a falsy name (`None` or `""`) is an aggregate;
otherwise strip/lower the name and test every keyword as a substring. -/
def is_aggregate (name : Option String) : Bool :=
  match name with
  | Option.none => true
  | Option.some s =>
    if s = "" then true
    else
      AGGREGATE_WORDS.any (fun k => strContains (pyLower (pyStrip s)) k)

/-!
## Column-role resolution

`backend.py` and `db_designer.py` resolve column roles by substring search
over the live column list, e.g.

  `pwith_col = next((c for c in ecols if c and "with" in c.lower()), None)`

The generator tests each candidate column for truthiness (non-empty) and
substring containment, returning the first hit.
-/

/-- `next((c for c in cols if c and sub in c.lower()), None)`. -/
def findColBySub (cols : List String) (sub : String) : Option String :=
  cols.find? (fun c => !(c = "") && strContains (pyLower c) sub)

/-- The 'without' role: first column containing "without"
(`backend.py` lines 124, 164, 244, 329, 435; `db_designer.py` 209, 257). -/
def findWithoutCol (cols : List String) : Option String :=
  findColBySub cols "without"

/-- The 'with' role as the code implements it: first column containing
"with" — with NO exclusion of "without"
(`backend.py` line 165; `db_designer.py` lines 210, 258). -/
def findWithCol (cols : List String) : Option String :=
  findColBySub cols "with"

/-- Modelled from the spec: the 'with' role as §4.1 of the spec describes it —
first column containing "with" AND NOT containing "without".  This definition
follows the spec's words and exists only to be compared with `findWithCol`,
which follows the code. -/
def specFindWithCol (cols : List String) : Option String :=
  cols.find? (fun c => strContains (pyLower c) "with" && !(strContains (pyLower c) "without"))

/-- The canonical `ElectricityAccess` column list created by
`db_designer.init_db`. -/
def canonicalElecCols : List String :=
  ["record_id", "country_id", "year", "population",
   "people_without_electricity", "people_with_electricity"]

/-- Python's `round(x, 2)` over the exact-rational float model. -/
def round2 (q : ℚ) : ℚ := (round (q * 100) : ℤ) / 100

/-- Insert `a` into a sorted list, before every element it does not strictly
follow: among elements equal under the preorder the earlier-arriving one
stays first, matching the stability of Python's `list.sort`. -/
def insertSorted (le : α → α → Bool) (a : α) : List α → List α
  | [] => [a]
  | b :: bs =>
    if le b a && !(le a b) then b :: insertSorted le a bs else a :: b :: bs

/-- Stable sort by a total preorder.  A stable sorted permutation is unique,
so this agrees exactly with the stable sorts performed by Python's
`list.sort` in the queries below. -/
def insertionSort (le : α → α → Bool) : List α → List α
  | [] => []
  | a :: as => insertSorted le a (insertionSort le as)

/-!
Every percentage the queries emit is produced by `round(x, 2)` and is an
exact multiple of 1/100, so the model carries percentages as integer
hundredths (7000 stands for the float 70.0).  This keeps every query
computable by kernel reduction; the theorems relate the hundredths back to
the spec's `round2` formula over ℚ.  The order on hundredths agrees with
the float order the Python sorts use.
-/

/-- `round ((a : ℚ) / b)` computed in integer arithmetic, for `0 < b`:
`⌊a/b + 1/2⌋ = ⌊(2a+b)/(2b)⌋`. -/
def roundFrac (a b : ℤ) : ℤ := (2 * a + b) / (2 * b)

/-- `round ((a : ℚ) / b)` for any `b ≠ 0`: normalize the sign of the
denominator first. -/
def roundPct (a b : ℤ) : ℤ := if 0 < b then roundFrac a b else roundFrac (-a) (-b)

/-- The hundredths of `round((p - w) / p * 100, 2)`. -/
def accessPctH (p w : ℤ) : ℤ := roundPct ((p - w) * 10000) p

/-!
## Store model

`db_designer.init_db` creates the canonical schema.  Queries re-detect the
schema on every call (`db_designer._detect_schema`); a table may be absent
(modelled with `Option`).  When the `ElectricityAccess` table exists its
columns are the canonical ones, except that the `population` column may be
missing on older deployments (`init_db` tries to `ALTER TABLE` it in but
ignores failures), modelled by the `hasPopCol` flag.  Column-role resolution
on the canonical column lists is computed by the `findColBySub` family above;
lemmas below record the resolved names the query embeddings rely on.
-/

/-- A row of the `Countries` table: `(country_id, country_name, region)`.
`country_id` is the integer primary key; `country_name` is declared
`UNIQUE NOT NULL` but modelled optionally since queries re-check it. -/
structure CountryRow where
  country_id : ℤ
  country_name : Option String
  region : Option String
deriving DecidableEq, Repr

/-- A row of the `ElectricityAccess` table. -/
structure ElecRow where
  record_id : ℤ
  country_id : ℤ
  year : ℤ
  population : Option ℤ
  people_without : Option ℤ
  people_with : Option ℤ
deriving DecidableEq, Repr

/-- A row of the `PopulationData` table. -/
structure PopRow where
  country_id : ℤ
  year : ℤ
  population : Option ℤ
deriving DecidableEq, Repr

/-- The `ElectricityAccess` table: its rows plus whether the `population`
column is present (`hasPopCol = false` models an old table where the
`ALTER TABLE ... ADD COLUMN population` migration failed; queries must then
ignore the `population` field of every row). -/
structure ElecTable where
  hasPopCol : Bool
  rows : List ElecRow
deriving DecidableEq, Repr

/-- A store state as seen by one call: each logical table is present or
absent, exactly as `db_designer._detect_schema` reports it. -/
structure Store where
  countries : Option (List CountryRow)
  elec : Option ElecTable
  pop : Option (List PopRow)
deriving DecidableEq, Repr

/-- `LEFT JOIN PopulationData p ON p.country_id = ... AND p.year = ...`
followed by reading `p.population`.  `PopulationData` has
`UNIQUE(country_id, year)`, so the join matches at most one row; a missing
row and a `NULL` population both yield `none`. -/
def popJoin (pop : List PopRow) (cid y : ℤ) : Option ℤ :=
  match pop.find? (fun p => p.country_id == cid && p.year == y) with
  | Option.none => Option.none
  | Option.some p => p.population

/-- `FROM ElectricityAccess e JOIN Countries c ON e.country_id = c.country_id`
restricted to `WHERE e.year = ?`.  `country_id` is the `Countries` primary
key, so the inner join matches at most one country row. -/
def yearJoin (cs : List CountryRow) (et : ElecTable) (year : ℤ) : List (CountryRow × ElecRow) :=
  (et.rows.filter (fun e => e.year == year)).filterMap (fun e =>
    (cs.find? (fun c => c.country_id == e.country_id)).map (fun c => (c, e)))

/-- The population selected by `query_access_percent` for one joined row,
following the three live SQL branches (`backend.py` lines 250-284):
`COALESCE(p.population, e.population)` when both sources exist, else
whichever one exists. -/
def accessPopOf (popT : Option (List PopRow)) (hasPopCol : Bool)
    (ce : CountryRow × ElecRow) : Option ℤ :=
  match popT, hasPopCol with
  | Option.some ps, true =>
    match popJoin ps ce.2.country_id ce.2.year with
    | Option.some v => Option.some v
    | Option.none => ce.2.population
  | Option.some ps, false => popJoin ps ce.2.country_id ce.2.year
  | Option.none, true => ce.2.population
  | Option.none, false => Option.none

/-- The body of the Python result loop of `backend.query_access_percent`
(lines 288-308): skip falsy or aggregate names, skip missing or non-positive
population, clamp `without` into `[0, population]`, and compute the rounded
percentage. -/
def accessEntry (popT : Option (List PopRow)) (hasPopCol : Bool)
    (ce : CountryRow × ElecRow) : Option (String × ℤ × ℤ × ℤ) :=
  match ce.1.country_name with
  | Option.none => Option.none
  | Option.some name =>
    if name = "" then Option.none
    else if is_aggregate (Option.some name) then Option.none
    else
      match accessPopOf popT hasPopCol ce with
      | Option.none => Option.none
      | Option.some p =>
        if p ≤ 0 then Option.none
        else
          let w0 : ℤ := ce.2.people_without.getD 0
          let w : ℤ := min (max w0 0) p
          Option.some (name, p, w, accessPctH p w)

/-- `backend.query_access_percent(year)`: returns
`(country, population, without, access_pct)` rows sorted descending by
percentage.  Returns `[]` when the electricity or countries table is absent,
or when no population source exists at all. -/
def query_access_percent (s : Store) (year : ℤ) : List (String × ℤ × ℤ × ℤ) :=
  match s.elec, s.countries with
  | Option.some et, Option.some cs =>
    if s.pop.isSome || et.hasPopCol then
      insertionSort (fun a b => decide (b.2.2.2 ≤ a.2.2.2))
        ((yearJoin cs et year).filterMap (accessEntry s.pop et.hasPopCol))
    else []
  | _, _ => []

/-- SQLite's `TRIM(x)`: strips space characters from both ends. -/
def sqlTrim (s : String) : String :=
  String.mk (((s.data.dropWhile (fun c => c == ' ')).reverse.dropWhile
    (fun c => c == ' ')).reverse)

/-- The trimmed group key `TRIM(COALESCE(c.region, ''))` used by
`query_regional_comparison`. -/
def regionKey (ce : CountryRow × ElecRow) : String :=
  sqlTrim (ce.1.region.getD "")

/-- The per-row population contribution summed by `query_regional_comparison`,
following its three live SQL branches (`backend.py` lines 335-371):
`COALESCE(p.population, e.population, 0)`, or `COALESCE(e.population, 0)`,
or `COALESCE(p.population, 0)`. -/
def regionPopOf (popT : Option (List PopRow)) (hasPopCol : Bool)
    (ce : CountryRow × ElecRow) : ℤ :=
  match popT, hasPopCol with
  | Option.some ps, true =>
    match popJoin ps ce.2.country_id ce.2.year with
    | Option.some v => v
    | Option.none => ce.2.population.getD 0
  | Option.some ps, false => (popJoin ps ce.2.country_id ce.2.year).getD 0
  | Option.none, true => ce.2.population.getD 0
  | Option.none, false => 0

/-- Summed population of one region group. -/
def regionTotalPop (popT : Option (List PopRow)) (hasPopCol : Bool)
    (rows : List (CountryRow × ElecRow)) (r : String) : ℤ :=
  ((rows.filter (fun ce => regionKey ce == r)).map (regionPopOf popT hasPopCol)).sum

/-- Summed `COALESCE(e.people_without_electricity, 0)` of one region group. -/
def regionTotalWithout (rows : List (CountryRow × ElecRow)) (r : String) : ℤ :=
  ((rows.filter (fun ce => regionKey ce == r)).map (fun ce => ce.2.people_without.getD 0)).sum

/-- The body of the Python result loop of `backend.query_regional_comparison`
(lines 375-395): skip empty regions and zero total population, clamp the
summed `without` into `[0, total_pop]`, compute the rounded percentage, and
clamp it into `[0, 100]`.  (SQL `SUM` over the — always nonempty — group of
`COALESCE`d integers is never `NULL`, so the `total_pop is None` test of the
source has no effect.) -/
def regionEntry (popT : Option (List PopRow)) (hasPopCol : Bool)
    (rows : List (CountryRow × ElecRow)) (r : String) : Option (String × ℤ) :=
  if r = "" then Option.none
  else
    let tp : ℤ := regionTotalPop popT hasPopCol rows r
    if tp = 0 then Option.none
    else
      let tw : ℤ := min (max (regionTotalWithout rows r) 0) tp
      let pctH : ℤ := roundPct ((tp - tw) * 10000) tp
      Option.some (r, min (max pctH 0) 10000)

/-- `backend.query_regional_comparison(year)`: per-region rounded access
percentage for one year, sorted descending.  No aggregate filtering is
applied to country names; only the region string is inspected.  Returns `[]`
when the electricity or countries table is absent (the canonical `Countries`
table always has a `region` column) or when no population source exists. -/
def query_regional_comparison (s : Store) (year : ℤ) : List (String × ℤ) :=
  match s.elec, s.countries with
  | Option.some et, Option.some cs =>
    if s.pop.isSome || et.hasPopCol then
      let rows := yearJoin cs et year
      insertionSort (fun a b => decide (b.2 ≤ a.2))
        (((rows.map regionKey).eraseDups).filterMap
          (regionEntry s.pop et.hasPopCol rows))
    else []
  | _, _ => []

/-- `backend.query_yearly_trend()`: the resolution
`pwith_col = next((c for c in ecols if c and "with" in c.lower()), None)`
matches `people_without_electricity` first ("with" is a substring of
"without"), so on any schema with the canonical columns `pwith_col` is
truthy and the direct branch runs: per-year `SUM(COALESCE(pwith_col, 0))`
— i.e. a sum of the *without* column — ordered by year, negative totals
clamped to 0. -/
def query_yearly_trend (s : Store) : List (ℤ × ℤ) :=
  match s.elec with
  | Option.none => []
  | Option.some et =>
    let years := insertionSort (fun a b => decide (a ≤ b))
      ((et.rows.map (fun e => e.year)).eraseDups)
    years.map (fun y =>
      let v := ((et.rows.filter (fun e => e.year == y)).map
        (fun e => e.people_without.getD 0)).sum
      (y, if v < 0 then 0 else v))

/-- `backend.query_high_unserved(threshold)`: join all years against
`Countries`, group by country name, `HAVING SUM(COALESCE(without,0)) > ?`,
order by the total descending, then drop falsy and aggregate names in
Python. -/
def query_high_unserved (s : Store) (threshold : ℤ) : List (String × ℤ) :=
  match s.elec, s.countries with
  | Option.some et, Option.some cs =>
    let rows := et.rows.filterMap (fun e =>
      (cs.find? (fun c => c.country_id == e.country_id)).map (fun c => (c, e)))
    let keys := (rows.map (fun ce => ce.1.country_name)).eraseDups
    let agg := keys.filterMap (fun n =>
      let tot := ((rows.filter (fun ce => ce.1.country_name == n)).map
        (fun ce => ce.2.people_without.getD 0)).sum
      if threshold < tot then Option.some (n, tot) else Option.none)
    let sorted := insertionSort (fun a b => decide (b.2 ≤ a.2)) agg
    sorted.filterMap (fun nt =>
      match nt.1 with
      | Option.none => Option.none
      | Option.some n =>
        if n = "" then Option.none
        else if is_aggregate (Option.some n) then Option.none
        else Option.some (n, nt.2))
  | _, _ => []

/-- The `get_pop_without(cid, y)` helper of `backend.query_most_improved`
(lines 440-451): population from `PopulationData` first (first matching row,
may still be `NULL`), falling back to the electricity table's population
column when present; `without` from the first matching electricity row. -/
def get_pop_without (s : Store) (et : ElecTable) (cid y : ℤ) : Option ℤ × Option ℤ :=
  let popFromTbl : Option ℤ :=
    match s.pop with
    | Option.none => Option.none
    | Option.some ps => popJoin ps cid y
  let popVal : Option ℤ :=
    match popFromTbl with
    | Option.some v => Option.some v
    | Option.none =>
      if et.hasPopCol then
        match et.rows.find? (fun e => e.country_id == cid && e.year == y) with
        | Option.none => Option.none
        | Option.some e => e.population
      else Option.none
  let woVal : Option ℤ :=
    match et.rows.find? (fun e => e.country_id == cid && e.year == y) with
    | Option.none => Option.none
    | Option.some e => e.people_without
  (popVal, woVal)

/-- The body of the Python country loop of `backend.query_most_improved`
(lines 456-481): skip falsy and aggregate names, skip countries whose
population is missing or non-positive for either year, clamp each year's
`without`, and compute both rounded percentages and the rounded
improvement `round(access_e - access_s, 2)`; on hundredths that second
rounding is exact, so the improvement is the plain difference of the two
hundredths values. -/
def mostImprovedEntry (s : Store) (et : ElecTable) (startYear endYear : ℤ)
    (c : CountryRow) : Option (String × ℤ × ℤ × ℤ) :=
  match c.country_name with
  | Option.none => Option.none
  | Option.some name =>
    if name = "" then Option.none
    else if is_aggregate (Option.some name) then Option.none
    else
      match (get_pop_without s et c.country_id startYear).1,
            (get_pop_without s et c.country_id endYear).1 with
      | Option.some ps, Option.some pe =>
        if ps ≤ 0 ∨ pe ≤ 0 then Option.none
        else
          let ws : ℤ := min (max ((get_pop_without s et c.country_id startYear).2.getD 0) 0) ps
          let we : ℤ := min (max ((get_pop_without s et c.country_id endYear).2.getD 0) 0) pe
          let aSH : ℤ := accessPctH ps ws
          let aEH : ℤ := accessPctH pe we
          Option.some (name, aSH, aEH, aEH - aSH)
      | _, _ => Option.none

/-- Lexicographic order on character lists (code-point order, which agrees
with the byte-wise UTF-8 order SQLite's BINARY collation uses). -/
def charListLe : List Char → List Char → Bool
  | [], _ => true
  | _ :: _, [] => false
  | a :: as, b :: bs => if a == b then charListLe as bs else decide (a < b)

/-- SQLite `ORDER BY country_name` comparator: `NULL`s sort first, strings
byte-wise. -/
def nameLe (a b : CountryRow) : Bool :=
  match a.country_name, b.country_name with
  | Option.none, _ => true
  | Option.some _, Option.none => false
  | Option.some x, Option.some y => charListLe x.data y.data

/-- `backend.query_most_improved(start_year, end_year)` (Python defaults
1990 and 2016): per-country rounded access percentages at both years and
their rounded difference, sorted descending by improvement. -/
def query_most_improved (s : Store) (startYear endYear : ℤ) : List (String × ℤ × ℤ × ℤ) :=
  match s.elec, s.countries with
  | Option.some et, Option.some cs =>
    insertionSort (fun a b => decide (b.2.2.2 ≤ a.2.2.2))
      ((insertionSort nameLe cs).filterMap (mostImprovedEntry s et startYear endYear))
  | _, _ => []

/-- The default-argument call `query_most_improved()` uses the documented
1990-2016 window. -/
def query_most_improved_default (s : Store) : List (String × ℤ × ℤ × ℤ) :=
  query_most_improved s 1990 2016

/-- A cell of a `query_two_country_compare` result row: the code mixes
`None`, integers, the rounded percentage, and the literal string "None". -/
inductive CVal where
  | none
  | int (n : ℤ)
  | pct (h : ℤ)
  | str (s : String)
deriving DecidableEq, Repr

/-- The placeholder row produced for a name that is not found. -/
def comparePlaceholder (cname : String) : String × CVal × CVal × CVal × CVal :=
  (cname, CVal.none, CVal.str "None", CVal.str "None", CVal.str "None")

/-- `backend.query_two_country_compare(year, c1, c2)`: build a dict keyed by
`r[0].strip().lower()` over the `query_access_percent` rows (later rows win
on key collision, hence the `reverse.find?`), then emit one row per input
name in order; a found row carries the stored name, percentage, population,
derived with-count and without-count, a missing one the placeholder. -/
def query_two_country_compare (s : Store) (year : ℤ) (c1 c2 : String) :
    List (String × CVal × CVal × CVal × CVal) :=
  let rows := query_access_percent s year
  [c1, c2].map (fun cname =>
    match rows.reverse.find? (fun r => pyLower (pyStrip r.1) == pyLower (pyStrip cname)) with
    | Option.some r =>
      (r.1, CVal.pct r.2.2.2, CVal.int r.2.1, CVal.int (max (r.2.1 - r.2.2.1) 0),
        CVal.int r.2.2.1)
    | Option.none => comparePlaceholder cname)

/-!
## Record normalizer (`backend.get_electricity_records`, lines 39-83)
-/

/-- `r[i] if len(r) > i else None`. -/
def pyGet (r : List PyVal) (i : ℕ) : PyVal := r.getD i PyVal.none

/-- The defensive positional unpacking (lines 43-57): 6-or-more fields take
the first six; 5 fields leave population `None`; 4 fields leave population
and with `None`; anything shorter falls back to per-index access with `None`
defaults.  No shape can fail, so the `except: continue` arm is dead and
every row is accepted. -/
def destructRow (r : List PyVal) :
    PyVal × PyVal × PyVal × PyVal × PyVal × PyVal :=
  if r.length ≥ 6 then
    (pyGet r 0, pyGet r 1, pyGet r 2, pyGet r 3, pyGet r 4, pyGet r 5)
  else if r.length = 5 then
    (pyGet r 0, pyGet r 1, pyGet r 2, PyVal.none, pyGet r 3, pyGet r 4)
  else if r.length = 4 then
    (pyGet r 0, pyGet r 1, pyGet r 2, PyVal.none, pyGet r 3, PyVal.none)
  else
    (pyGet r 0, pyGet r 1, pyGet r 2, pyGet r 3, pyGet r 4, pyGet r 5)

/-- Lines 63-68: a string equal to "none" case-insensitively becomes `None`
(applied to the population, without and with positions only). -/
def normNoneSentinel (v : PyVal) : PyVal :=
  match v with
  | PyVal.str s => if pyLower s = "none" then PyVal.none else PyVal.str s
  | v => v

/-- Digits of a decimal literal. -/
def digitsToNat (cs : List Char) : ℕ :=
  cs.foldl (fun acc c => acc * 10 + (c.toNat - 48)) 0

/-- Python's `float(s)` on the string forms the data can carry: optional
surrounding whitespace, an optional sign, digits with an optional fractional
part (at least one digit overall).  Exponent/inf/nan forms are not modelled
— no stored value uses them — and anything else (including
thousands-separated strings such as "1,000", which CPython rejects) fails. -/
def parsePyFloat (s : String) : Option ℚ :=
  let cs := (pyStrip s).data
  let sign : ℚ × List Char :=
    match cs with
    | '-' :: rest => (-1, rest)
    | '+' :: rest => (1, rest)
    | _ => (1, cs)
  let intPart := sign.2.takeWhile (fun c => c.isDigit)
  let rest := sign.2.dropWhile (fun c => c.isDigit)
  match rest with
  | [] =>
    if intPart.isEmpty then Option.none
    else Option.some (sign.1 * (digitsToNat intPart : ℚ))
  | '.' :: frac =>
    if frac.all (fun c => c.isDigit) && !(intPart.isEmpty && frac.isEmpty) then
      Option.some (sign.1 * ((digitsToNat intPart : ℚ) +
        (digitsToNat frac : ℚ) / (10 ^ frac.length)))
    else Option.none
  | _ => Option.none

/-- `int(q)`: truncation toward zero. -/
def pyTrunc (q : ℚ) : ℤ := if q < 0 then -(⌊-q⌋) else ⌊q⌋

/-- The `to_int_safe` closure (lines 71-77): `int(float(v))` with all
failures mapped to `None`.  Modelled with exact rationals: the
`int -> float -> int` round-trip is the identity below 2^53, covering every
stored value, so `PyVal.int` maps to itself. -/
def to_int_safe (v : PyVal) : Option ℤ :=
  match v with
  | PyVal.none => Option.none
  | PyVal.int n => Option.some n
  | PyVal.str s => (parsePyFloat s).map pyTrunc

/-- A normalized record `(record_id, country, year, population, without,
with)`.  The first three positions are passed through untouched; the last
three are coerced. -/
structure NormRec where
  rec_id : PyVal
  country : PyVal
  year : PyVal
  population : Option ℤ
  without : Option ℤ
  withVal : Option ℤ
deriving DecidableEq, Repr

/-- One iteration of the normalization loop of
`backend.get_electricity_records`: destructure, map "None" sentinels to
`None`, then coerce — `population` unconditionally, `without` with a 0
default only when its source is `None`, `with` staying `None` when its
source is `None`. -/
def normalizeRow (r : List PyVal) : NormRec :=
  let d := destructRow r
  let po := normNoneSentinel d.2.2.2.1
  let wo := normNoneSentinel d.2.2.2.2.1
  let wi := normNoneSentinel d.2.2.2.2.2
  { rec_id := d.1
    country := d.2.1
    year := d.2.2.1
    population := to_int_safe po
    without := match wo with
      | PyVal.none => Option.some 0
      | v => to_int_safe v
    withVal := match wi with
      | PyVal.none => Option.none
      | v => to_int_safe v }

/-- An `Option ℤ` field fed back to Python: `None` or an `int`. -/
def optToPy : Option ℤ → PyVal
  | Option.none => PyVal.none
  | Option.some n => PyVal.int n

/-- A normalized record viewed again as a raw 6-field row. -/
def normToRow (n : NormRec) : List PyVal :=
  [n.rec_id, n.country, n.year, optToPy n.population, optToPy n.without,
   optToPy n.withVal]

/-!
## Concrete stores and rows used to instantiate the theorems
-/

/-- Canonical store with one electricity row `people_without = 30`,
`people_with = 70`: the yearly trend reports 30. -/
def c1Store : Store :=
  { countries := Option.some [⟨1, Option.some "Kenya", Option.none⟩]
    elec := Option.some ⟨true,
      [⟨1, 1, 2000, Option.some 100, Option.some 30, Option.some 70⟩]⟩
    pop := Option.none }

/-- Region "Earth" contains the aggregate entity "World" (1000 people, all
without access) next to "Kenya" (1000 people, full access). -/
def c2Countries : List CountryRow :=
  [⟨1, Option.some "World", Option.some "Earth"⟩,
   ⟨2, Option.some "Kenya", Option.some "Earth"⟩]

/-- The electricity rows for the two `c2Countries` entries in year 2000. -/
def c2Elec : ElecTable :=
  ⟨true, [⟨1, 1, 2000, Option.some 1000, Option.some 1000, Option.none⟩,
          ⟨2, 2, 2000, Option.some 1000, Option.some 0, Option.none⟩]⟩

/-- The store holding `c2Countries` and `c2Elec`. -/
def c2Store : Store :=
  { countries := Option.some c2Countries
    elec := Option.some c2Elec
    pop := Option.none }

/-- One country, population 1000, raw without 300. -/
def c3Store : Store :=
  { countries := Option.some [⟨1, Option.some "Kenya", Option.some "Africa"⟩]
    elec := Option.some ⟨true,
      [⟨1, 1, 2000, Option.some 1000, Option.some 300, Option.none⟩]⟩
    pop := Option.none }

/-- One country, population 1000, corrupt raw without 1500. -/
def c3StoreB : Store :=
  { countries := Option.some [⟨1, Option.some "Kenya", Option.some "Africa"⟩]
    elec := Option.some ⟨true,
      [⟨1, 1, 2000, Option.some 1000, Option.some 1500, Option.none⟩]⟩
    pop := Option.none }

/-- Region "R" with countries A(pop=100, without=0) and
B(pop=900, without=900): population-weighted access is 10.00, not 50. -/
def c4Store : Store :=
  { countries := Option.some [⟨1, Option.some "Kenya", Option.some "R"⟩,
                              ⟨2, Option.some "Chad", Option.some "R"⟩]
    elec := Option.some ⟨true,
      [⟨1, 1, 2000, Option.some 100, Option.some 0, Option.none⟩,
       ⟨2, 2, 2000, Option.some 900, Option.some 900, Option.none⟩]⟩
    pop := Option.none }

/-- Kenya improves from 40.00% (1990) to 65.50% (2016); Chad has no 2016
population and must be excluded. -/
def c5Store : Store :=
  { countries := Option.some [⟨1, Option.some "Kenya", Option.none⟩,
                              ⟨2, Option.some "Chad", Option.none⟩]
    elec := Option.some ⟨true,
      [⟨1, 1, 1990, Option.some 1000, Option.some 600, Option.none⟩,
       ⟨2, 1, 2016, Option.some 1000, Option.some 345, Option.none⟩,
       ⟨3, 2, 1990, Option.some 500, Option.some 100, Option.none⟩]⟩
    pop := Option.none }

/-- A store with no tables at all. -/
def c6StoreA : Store :=
  { countries := Option.none, elec := Option.none, pop := Option.none }

/-- Both data tables exist but no population source does: the electricity
table lost its population column and `PopulationData` is absent. -/
def c6StoreB : Store :=
  { countries := Option.some [⟨1, Option.some "Kenya", Option.some "Africa"⟩]
    elec := Option.some ⟨false,
      [⟨1, 1, 2000, Option.none, Option.some 300, Option.none⟩]⟩
    pop := Option.none }

/-- A raw row whose without position holds a non-coercible string. -/
def c7Row : List PyVal :=
  [PyVal.int 1, PyVal.str "X", PyVal.int 2020, PyVal.none, PyVal.str "abc",
   PyVal.none]

/-- A raw row whose without position holds the "None" sentinel. -/
def c7RowSentinel : List PyVal :=
  [PyVal.int 1, PyVal.str "X", PyVal.int 2020, PyVal.none, PyVal.str "None",
   PyVal.none]

/-- One country with access data so that lookups hit. -/
def c8Store : Store :=
  { countries := Option.some [⟨1, Option.some "Kenya", Option.some "Africa"⟩]
    elec := Option.some ⟨true,
      [⟨1, 1, 2000, Option.some 1000, Option.some 300, Option.none⟩]⟩
    pop := Option.none }

/-- A raw row whose without position fails coercion, so its normalization
has a null without field and renormalizes differently. -/
def c10Row : List PyVal :=
  [PyVal.int 1, PyVal.str "X", PyVal.int 2020, PyVal.none, PyVal.str "abc",
   PyVal.none]

/-- A normalized record with non-null without. -/
def c10Rec : NormRec :=
  { rec_id := PyVal.int 1, country := PyVal.str "Kenya", year := PyVal.int 2020
    population := Option.some 1000, without := Option.some 300
    withVal := Option.none }

/-!
## Helper lemmas
-/

theorem round_rat_mono {x y : ℚ} (h : x ≤ y) : round x ≤ round y := by
  rw [round_eq, round_eq]
  exact Int.floor_mono (by linarith)

theorem round2_nonneg {q : ℚ} (h : 0 ≤ q) : 0 ≤ round2 q := by
  unfold round2
  have h1 : (0 : ℤ) ≤ round (q * 100) := by
    have h2 := round_rat_mono (show (0 : ℚ) ≤ q * 100 by nlinarith)
    rwa [round_zero] at h2
  have h3 : (0 : ℚ) ≤ ((round (q * 100) : ℤ) : ℚ) := by exact_mod_cast h1
  linarith

theorem round2_le_hundred {q : ℚ} (h : q ≤ 100) : round2 q ≤ 100 := by
  unfold round2
  have h1 : round (q * 100) ≤ 10000 := by
    have h2 := round_rat_mono (show q * 100 ≤ ((10000 : ℤ) : ℚ) by push_cast; nlinarith)
    rwa [round_intCast] at h2
  have h3 : ((round (q * 100) : ℤ) : ℚ) ≤ 10000 := by exact_mod_cast h1
  linarith

theorem round2_zero : round2 0 = 0 := by
  unfold round2
  rw [show ((0 : ℚ) * 100) = 0 by ring, round_zero]
  simp

/-- C9: `_is_aggregate` returns true for every null or empty name; a
non-empty name is trimmed and lower-cased and classified as aggregate iff
some keyword of `AGGREGATE_WORDS` occurs in it as a substring; in
particular "World" is an aggregate, "Kenya" is not, and `""`/`None` are. -/
theorem c9_is_aggregate_contract :
    is_aggregate Option.none = true ∧
    is_aggregate (Option.some "") = true ∧
    (∀ s : String, s ≠ "" →
      (is_aggregate (Option.some s) = true ↔
        ∃ k ∈ AGGREGATE_WORDS, strContains (pyLower (pyStrip s)) k = true)) ∧
    is_aggregate (Option.some "World") = true ∧
    is_aggregate (Option.some "Kenya") = false := by
  refine ⟨rfl, rfl, ?_, by decide, by decide⟩
  intro s hs
  simp only [is_aggregate, if_neg hs]
  exact List.any_eq_true

theorem c9_witness :
    "World" ≠ "" ∧
    (is_aggregate (Option.some "World") = true ↔
      ∃ k ∈ AGGREGATE_WORDS, strContains (pyLower (pyStrip "World")) k = true) :=
  ⟨by decide, c9_is_aggregate_contract.2.2.1 "World" (by decide)⟩

/-- C1: evaluates the 'with' role resolution on the canonical electricity
schema.  Because "with" is a substring of "without", the code's resolver
(`findWithCol`, used by `query_yearly_trend`, `get_records` and
`add_record`) picks `people_without_electricity` — the same column as the
'without' role — although `people_with_electricity` is present and is what
the spec's rule (`specFindWithCol`) selects; consequently the yearly-trend
"direct" branch sums the without column (30 here, not the stored
people-with value 70). -/
theorem c1_with_role_resolution :
    findWithCol canonicalElecCols = Option.some "people_without_electricity" ∧
    findWithCol canonicalElecCols = findWithoutCol canonicalElecCols ∧
    specFindWithCol canonicalElecCols = Option.some "people_with_electricity" ∧
    Option.some "people_without_electricity" ≠
      Option.some "people_with_electricity" ∧
    query_yearly_trend c1Store = [(2000, 30)] := by
  refine ⟨by decide, by decide, by decide, by decide, by decide⟩

/-- C7 counterexample: the raw row
`(1, "X", 2020, None, "abc", None)` is accepted by the normalizer, yet its
normalized `without` field is null (the string "abc" is present but fails
numeric coercion), contradicting the claim that `without` is always
non-null. -/
theorem c7_counterexample :
    (normalizeRow c7Row).without = (Option.none : Option ℤ) := by decide

/-- C7 (amended): the normalized `without` is `0` whenever the sourced
without value is missing — `None`, absent by arity, or the "None" sentinel —
and is null exactly when a present, non-sentinel value fails numeric
coercion; `with` and `population` remain nullable. -/
theorem c7_without_null_semantics :
    ∀ r : List PyVal,
      (normNoneSentinel (destructRow r).2.2.2.2.1 = PyVal.none →
        (normalizeRow r).without = Option.some 0) ∧
      ((normalizeRow r).without = Option.none ↔
        normNoneSentinel (destructRow r).2.2.2.2.1 ≠ PyVal.none ∧
        to_int_safe (normNoneSentinel (destructRow r).2.2.2.2.1) =
          Option.none) := by
  intro r
  constructor
  · intro h
    simp only [normalizeRow, h]
  · cases hw : normNoneSentinel (destructRow r).2.2.2.2.1 with
    | none => simp [normalizeRow, hw]
    | int n => simp [normalizeRow, hw, to_int_safe]
    | str s => simp [normalizeRow, hw, to_int_safe]

theorem c7_witness :
    (normNoneSentinel (destructRow c7RowSentinel).2.2.2.2.1 = PyVal.none →
      (normalizeRow c7RowSentinel).without = Option.some 0) ∧
    (normalizeRow c7RowSentinel).without = Option.some 0 :=
  ⟨(c7_without_null_semantics c7RowSentinel).1,
   (c7_without_null_semantics c7RowSentinel).1 (by decide)⟩

/-- C10 counterexample: normalizing `(1, "X", 2020, None, "abc", None)`
yields a record with null `without`; feeding that record back through the
normalizer turns the null `without` into `0`, so normalization is not
idempotent on this output. -/
theorem c10_counterexample :
    normalizeRow (normToRow (normalizeRow c10Row)) ≠ normalizeRow c10Row := by
  decide

/-- C10 (amended): renormalizing a normalized record reproduces it exactly
whenever the record's `without` field is non-null (the only field whose
coercion is not preserved: a null `without` is re-defaulted to 0). -/
theorem c10_renormalize_idempotent :
    ∀ n : NormRec, n.without ≠ Option.none →
      normalizeRow (normToRow n) = n := by
  intro n h
  obtain ⟨ri, co, ye, po, wo, wi⟩ := n
  cases wo with
  | none => exact absurd rfl h
  | some w => cases po <;> cases wi <;> rfl

theorem c10_witness :
    c10Rec.without ≠ Option.none ∧ normalizeRow (normToRow c10Rec) = c10Rec :=
  ⟨by decide, c10_renormalize_idempotent c10Rec (by decide)⟩

theorem mem_insertSorted {α : Type} {le : α → α → Bool} {a x : α} {l : List α} :
    x ∈ insertSorted le a l ↔ x = a ∨ x ∈ l := by
  induction l with
  | nil => simp [insertSorted]
  | cons b bs ih =>
    simp only [insertSorted]
    split
    · simp only [List.mem_cons, ih]
      tauto
    · simp [List.mem_cons]

theorem mem_insertionSort {α : Type} {le : α → α → Bool} {x : α} {l : List α} :
    x ∈ insertionSort le l ↔ x ∈ l := by
  induction l with
  | nil => simp [insertionSort]
  | cons a as ih => simp [insertionSort, mem_insertSorted, ih]

theorem pairwise_insertSorted {α : Type} {le : α → α → Bool}
    (htrans : ∀ a b c, le a b = true → le b c = true → le a c = true)
    (htot : ∀ a b, le a b = true ∨ le b a = true) {a : α} {l : List α}
    (h : l.Pairwise (fun x y => le x y = true)) :
    (insertSorted le a l).Pairwise (fun x y => le x y = true) := by
  induction l with
  | nil => simp [insertSorted]
  | cons b bs ih =>
    rw [List.pairwise_cons] at h
    obtain ⟨hb, hbs⟩ := h
    simp only [insertSorted]
    split
    · rename_i hcond
      rw [Bool.and_eq_true, Bool.not_eq_true'] at hcond
      rw [List.pairwise_cons]
      refine ⟨?_, ih hbs⟩
      intro y hy
      rcases mem_insertSorted.mp hy with rfl | hy
      · exact hcond.1
      · exact hb y hy
    · rename_i hcond
      rw [Bool.and_eq_true, Bool.not_eq_true'] at hcond
      have hab : le a b = true := by
        rcases htot a b with h1 | h1
        · exact h1
        · rcases Bool.eq_false_or_eq_true (le a b) with h2 | h2
          · exact h2
          · exact absurd ⟨h1, h2⟩ hcond
      rw [List.pairwise_cons]
      refine ⟨?_, List.pairwise_cons.mpr ⟨hb, hbs⟩⟩
      intro y hy
      rcases List.mem_cons.mp hy with rfl | hy
      · exact hab
      · exact htrans a b y hab (hb y hy)

theorem pairwise_insertionSort {α : Type} {le : α → α → Bool}
    (htrans : ∀ a b c, le a b = true → le b c = true → le a c = true)
    (htot : ∀ a b, le a b = true ∨ le b a = true) (l : List α) :
    (insertionSort le l).Pairwise (fun x y => le x y = true) := by
  induction l with
  | nil => simp [insertionSort]
  | cons a as ih => exact pairwise_insertSorted htrans htot ih

theorem accessFrac_nonneg {p w : ℤ} (hp : 0 < p) (h0 : 0 ≤ w) (hw : w ≤ p) :
    0 ≤ (((p : ℚ)) - (w : ℚ)) / (p : ℚ) * 100 := by
  have hpq : (0 : ℚ) < (p : ℚ) := by exact_mod_cast hp
  have hwq : (w : ℚ) ≤ (p : ℚ) := by exact_mod_cast hw
  have h1 : (0 : ℚ) ≤ ((p : ℚ) - (w : ℚ)) / (p : ℚ) :=
    div_nonneg (by linarith) hpq.le
  linarith

theorem accessFrac_le_hundred {p w : ℤ} (hp : 0 < p) (h0 : 0 ≤ w) :
    (((p : ℚ)) - (w : ℚ)) / (p : ℚ) * 100 ≤ 100 := by
  have hpq : (0 : ℚ) < (p : ℚ) := by exact_mod_cast hp
  have h0q : (0 : ℚ) ≤ (w : ℚ) := by exact_mod_cast h0
  have h1 : ((p : ℚ) - (w : ℚ)) / (p : ℚ) ≤ 1 := by
    rw [div_le_one hpq]
    linarith
  nlinarith

theorem accessEntry_inv {popT : Option (List PopRow)} {hasPopCol : Bool}
    {ce : CountryRow × ElecRow} {name : String} {p w pct : ℤ}
    (h : accessEntry popT hasPopCol ce = Option.some (name, p, w, pct)) :
    ce.1.country_name = Option.some name ∧ 0 < p ∧
    accessPopOf popT hasPopCol ce = Option.some p ∧
    w = min (max (ce.2.people_without.getD 0) 0) p ∧
    pct = accessPctH p w := by
  unfold accessEntry at h
  split at h
  · exact absurd h (by simp)
  · rename_i nm hn
    split_ifs at h with he ha
    split at h
    · exact absurd h (by simp)
    · rename_i pv hp
      split_ifs at h with hle
      simp only [Option.some.injEq, Prod.mk.injEq] at h
      obtain ⟨h1, h2, h3, h4⟩ := h
      subst h1 h2 h3
      exact ⟨hn, by omega, hp, rfl, h4.symm⟩

theorem roundFrac_eq_round {a b : ℤ} (hb : 0 < b) :
    roundFrac a b = round ((a : ℚ) / (b : ℚ)) := by
  rw [round_eq]
  have hbq : ((b : ℚ)) ≠ 0 := by
    exact_mod_cast hb.ne'
  have h1 : ((2 * b).toNat : ℤ) = 2 * b := Int.toNat_of_nonneg (by omega)
  have hcast : (((2 * b).toNat : ℕ) : ℚ) = ((2 * b : ℤ) : ℚ) := by
    exact_mod_cast h1
  have harg : (a : ℚ) / (b : ℚ) + 1 / 2 =
      (((2 * a + b : ℤ) : ℚ)) / (((2 * b).toNat : ℕ) : ℚ) := by
    rw [hcast]
    push_cast
    field_simp
    ring
  rw [harg, Rat.floor_intCast_div_natCast]
  unfold roundFrac
  rw [Int.toNat_of_nonneg (by omega)]

theorem roundPct_eq_round {a b : ℤ} (hb : b ≠ 0) :
    roundPct a b = round ((a : ℚ) / (b : ℚ)) := by
  unfold roundPct
  by_cases h : 0 < b
  · rw [if_pos h]
    exact roundFrac_eq_round h
  · rw [if_neg h]
    rw [roundFrac_eq_round (by omega)]
    congr 1
    push_cast
    rw [neg_div_neg_eq]

theorem accessPctH_eq {p w : ℤ} (hp : 0 < p) :
    ((accessPctH p w : ℤ) : ℚ) / 100 =
      round2 ((((p : ℚ)) - (w : ℚ)) / (p : ℚ) * 100) := by
  unfold accessPctH round2
  rw [roundPct_eq_round (by omega)]
  have hpq : ((p : ℚ)) ≠ 0 := by
    have : (0 : ℚ) < (p : ℚ) := by exact_mod_cast hp
    exact this.ne'
  have harg : (((p - w) * 10000 : ℤ) : ℚ) / (p : ℚ) =
      (((p : ℚ)) - (w : ℚ)) / (p : ℚ) * 100 * 100 := by
    push_cast
    field_simp
    ring
  rw [harg]

theorem round2_hundredth (k : ℤ) : round2 (((k : ℚ)) / 100) = ((k : ℚ)) / 100 := by
  unfold round2
  rw [show ((k : ℚ)) / 100 * 100 = ((k : ℚ)) by field_simp, round_intCast]

theorem mem_query_access_percent {s : Store} {year : ℤ} {row : String × ℤ × ℤ × ℤ}
    (h : row ∈ query_access_percent s year) :
    ∃ cs et ce, s.countries = Option.some cs ∧ s.elec = Option.some et ∧
      ce ∈ yearJoin cs et year ∧
      accessEntry s.pop et.hasPopCol ce = Option.some row := by
  cases hse : s.elec with
  | none =>
    rw [query_access_percent, hse] at h
    exact absurd h (List.not_mem_nil _)
  | some et =>
    cases hsc : s.countries with
    | none =>
      rw [query_access_percent, hse, hsc] at h
      exact absurd h (List.not_mem_nil _)
    | some cs =>
      rw [query_access_percent, hse, hsc] at h
      simp only at h
      by_cases hpop : (s.pop.isSome || et.hasPopCol) = true
      · rw [if_pos hpop] at h
        rw [mem_insertionSort] at h
        obtain ⟨ce, hce, hentry⟩ := List.mem_filterMap.mp h
        exact ⟨cs, et, ce, rfl, rfl, hce, hentry⟩
      · rw [if_neg hpop] at h
        exact absurd h (List.not_mem_nil _)

/-- C3: every row `(country, population, without, access_pct)` of
`query_access_percent(year)` has a positive population, a without value
clamped into `[0, population]` (it is `min (max raw 0) population` for the
raw stored value, so raw negatives are floored to 0 and raw values above
the population are capped to it), and the access percentage — carried as
integer hundredths — equal to `round((population - without) / population
* 100, 2)`, which lies in `[0, 100]`. -/
theorem c3_access_percent_rows :
    ∀ (s : Store) (year : ℤ) (name : String) (p w pct : ℤ),
      (name, p, w, pct) ∈ query_access_percent s year →
      0 < p ∧ 0 ≤ w ∧ w ≤ p ∧
      (∃ raw : ℤ, w = min (max raw 0) p) ∧
      ((pct : ℚ)) / 100 = round2 ((((p : ℚ)) - (w : ℚ)) / (p : ℚ) * 100) ∧
      0 ≤ ((pct : ℚ)) / 100 ∧ ((pct : ℚ)) / 100 ≤ 100 := by
  intro s year name p w pct hmem
  obtain ⟨cs, et, ce, _, _, _, hentry⟩ := mem_query_access_percent hmem
  obtain ⟨_, hp, _, hw, hpct⟩ := accessEntry_inv hentry
  have h0w : 0 ≤ w := by
    rw [hw]
    exact le_min (le_max_right _ _) hp.le
  have hwp : w ≤ p := by
    rw [hw]
    exact min_le_right _ _
  have hq : ((pct : ℚ)) / 100 = round2 ((((p : ℚ)) - (w : ℚ)) / (p : ℚ) * 100) := by
    rw [hpct]
    exact accessPctH_eq hp
  refine ⟨hp, h0w, hwp, ⟨ce.2.people_without.getD 0, hw⟩, hq, ?_, ?_⟩
  · rw [hq]
    exact round2_nonneg (accessFrac_nonneg hp h0w hwp)
  · rw [hq]
    exact round2_le_hundred (accessFrac_le_hundred hp h0w)

theorem c3_witness :
    (0 < (1000 : ℤ) ∧ 0 ≤ (300 : ℤ) ∧ (300 : ℤ) ≤ 1000 ∧
      (∃ raw : ℤ, (300 : ℤ) = min (max raw 0) 1000) ∧
      (((7000 : ℤ) : ℚ)) / 100 =
        round2 (((((1000 : ℤ) : ℚ)) - (((300 : ℤ)) : ℚ)) /
          (((1000 : ℤ)) : ℚ) * 100) ∧
      0 ≤ (((7000 : ℤ) : ℚ)) / 100 ∧ (((7000 : ℤ) : ℚ)) / 100 ≤ 100) ∧
    query_access_percent c3StoreB 2000 = [("Kenya", 1000, 1000, 0)] :=
  ⟨c3_access_percent_rows c3Store 2000 "Kenya" 1000 300 7000 (by decide),
   by decide⟩

theorem regionEntry_inv {popT : Option (List PopRow)} {hasPopCol : Bool}
    {rows : List (CountryRow × ElecRow)} {r0 r : String} {pctH : ℤ}
    (h : regionEntry popT hasPopCol rows r0 = Option.some (r, pctH)) :
    r0 = r ∧ r ≠ "" ∧ regionTotalPop popT hasPopCol rows r ≠ 0 ∧
    pctH = min (max (accessPctH (regionTotalPop popT hasPopCol rows r)
      (min (max (regionTotalWithout rows r) 0)
        (regionTotalPop popT hasPopCol rows r))) 0) 10000 := by
  simp only [regionEntry] at h
  split_ifs at h with he htp
  simp only [Option.some.injEq, Prod.mk.injEq] at h
  obtain ⟨h1, h2⟩ := h
  subst h1
  exact ⟨rfl, he, htp, h2.symm⟩

theorem roundPct_bounds {a b : ℤ} (hb : 0 < b) (h0 : 0 ≤ a)
    (hab : a ≤ 10000 * b) : 0 ≤ roundPct a b ∧ roundPct a b ≤ 10000 := by
  rw [roundPct_eq_round (by omega)]
  have hbq : (0 : ℚ) < (b : ℚ) := by exact_mod_cast hb
  have h0q : (0 : ℚ) ≤ (a : ℚ) / (b : ℚ) := by
    apply div_nonneg _ hbq.le
    exact_mod_cast h0
  have h1q : (a : ℚ) / (b : ℚ) ≤ ((10000 : ℤ) : ℚ) := by
    rw [div_le_iff hbq]
    push_cast
    exact_mod_cast hab
  constructor
  · have := round_rat_mono h0q
    rwa [round_zero] at this
  · have := round_rat_mono h1q
    rwa [round_intCast] at this

theorem mem_query_regional {s : Store} {year : ℤ} {r : String} {pctH : ℤ}
    (h : (r, pctH) ∈ query_regional_comparison s year) :
    ∃ cs et, s.countries = Option.some cs ∧ s.elec = Option.some et ∧
      regionEntry s.pop et.hasPopCol (yearJoin cs et year) r =
        Option.some (r, pctH) := by
  cases hse : s.elec with
  | none =>
    rw [query_regional_comparison, hse] at h
    exact absurd h (List.not_mem_nil _)
  | some et =>
    cases hsc : s.countries with
    | none =>
      rw [query_regional_comparison, hse, hsc] at h
      exact absurd h (List.not_mem_nil _)
    | some cs =>
      rw [query_regional_comparison, hse, hsc] at h
      simp only at h
      by_cases hpop : (s.pop.isSome || et.hasPopCol) = true
      · rw [if_pos hpop] at h
        rw [mem_insertionSort] at h
        obtain ⟨key, _, hentry⟩ := List.mem_filterMap.mp h
        have hkey := (regionEntry_inv hentry).1
        subst hkey
        exact ⟨cs, et, rfl, rfl, hentry⟩
      · rw [if_neg hpop] at h
        exact absurd h (List.not_mem_nil _)

theorem regional_clamp_eq {tp twRaw : ℤ} (htp : tp ≠ 0) :
    min (max (accessPctH tp (min (max twRaw 0) tp)) 0) 10000 =
      accessPctH tp (min (max twRaw 0) tp) ∧
    ((accessPctH tp (min (max twRaw 0) tp) : ℤ) : ℚ) / 100 =
      round2 ((((tp : ℚ)) - ((min (max twRaw 0) tp : ℤ) : ℚ)) / (tp : ℚ) * 100) := by
  rcases lt_or_gt_of_ne htp with hneg | hpos
  · have htw : min (max twRaw 0) tp = tp := by omega
    rw [htw]
    have hz : accessPctH tp tp = 0 := by
      unfold accessPctH
      rw [show (tp - tp) * 10000 = 0 by ring, roundPct_eq_round htp]
      rw [show ((0 : ℤ) : ℚ) / (tp : ℚ) = 0 by simp, round_zero]
    rw [hz]
    constructor
    · omega
    · rw [show (((tp : ℤ) : ℚ)) - (((tp : ℤ)) : ℚ) = 0 by ring]
      rw [show ((0 : ℚ)) / ((tp : ℤ) : ℚ) * 100 = 0 by simp]
      rw [round2_zero]
      simp
  · set tw := min (max twRaw 0) tp with htwdef
    have h0tw : 0 ≤ tw := by omega
    have htwtp : tw ≤ tp := by omega
    have hb := roundPct_bounds hpos
      (show 0 ≤ (tp - tw) * 10000 by nlinarith)
      (show (tp - tw) * 10000 ≤ 10000 * tp by nlinarith)
    have hb2 : 0 ≤ accessPctH tp tw ∧ accessPctH tp tw ≤ 10000 := hb
    constructor
    · omega
    · exact accessPctH_eq hpos

/-- C4: every region row of `query_regional_comparison(year)` reports
`round((sum_pop - sum_without) / sum_pop * 100, 2)` (as integer hundredths)
computed over the summed population and summed without of the region's
joined rows for that year, the summed without clamped into `[0, sum_pop]` —
a population-weighted figure, not an average of per-country percentages. -/
theorem c4_regional_weighted :
    ∀ (s : Store) (year : ℤ) (r : String) (pctH : ℤ),
      (r, pctH) ∈ query_regional_comparison s year →
      ∃ cs et, s.countries = Option.some cs ∧ s.elec = Option.some et ∧
        regionTotalPop s.pop et.hasPopCol (yearJoin cs et year) r ≠ 0 ∧
        ((pctH : ℚ)) / 100 =
          round2 ((((regionTotalPop s.pop et.hasPopCol (yearJoin cs et year) r : ℤ) : ℚ) -
              ((min (max (regionTotalWithout (yearJoin cs et year) r) 0)
                (regionTotalPop s.pop et.hasPopCol (yearJoin cs et year) r) : ℤ) : ℚ)) /
            ((regionTotalPop s.pop et.hasPopCol (yearJoin cs et year) r : ℤ) : ℚ) * 100) := by
  intro s year r pctH hmem
  obtain ⟨cs, et, hcs, het, hentry⟩ := mem_query_regional hmem
  obtain ⟨_, _, htp, hpct⟩ := regionEntry_inv hentry
  obtain ⟨hclamp, hbridge⟩ :=
    @regional_clamp_eq _ (regionTotalWithout (yearJoin cs et year) r) htp
  refine ⟨cs, et, hcs, het, htp, ?_⟩
  rw [hpct, hclamp]
  exact hbridge

theorem c4_witness :
    (∃ cs et, c4Store.countries = Option.some cs ∧ c4Store.elec = Option.some et ∧
      regionTotalPop c4Store.pop et.hasPopCol (yearJoin cs et 2000) "R" ≠ 0 ∧
      (((1000 : ℤ) : ℚ)) / 100 =
        round2 ((((regionTotalPop c4Store.pop et.hasPopCol (yearJoin cs et 2000) "R" : ℤ) : ℚ) -
            ((min (max (regionTotalWithout (yearJoin cs et 2000) "R") 0)
              (regionTotalPop c4Store.pop et.hasPopCol (yearJoin cs et 2000) "R") : ℤ) : ℚ)) /
          ((regionTotalPop c4Store.pop et.hasPopCol (yearJoin cs et 2000) "R" : ℤ) : ℚ) * 100)) ∧
    query_regional_comparison c4Store 2000 = [("R", 1000)] ∧
    (1000 : ℤ) ≠ 5000 :=
  ⟨c4_regional_weighted c4Store 2000 "R" 1000 (by decide), by decide, by decide⟩

theorem sum_map_filter_split {α : Type} (l : List α) (p : α → Bool) (f : α → ℤ) :
    ((l.filter (fun x => !(p x))).map f).sum + ((l.filter p).map f).sum
      = (l.map f).sum := by
  induction l with
  | nil => simp
  | cons a as ih =>
    cases hp : p a with
    | true =>
      simp only [List.filter_cons, hp, Bool.not_true, Bool.false_eq_true, if_false,
        if_true, reduceIte, List.map_cons, List.sum_cons]
      omega
    | false =>
      simp only [List.filter_cons, hp, Bool.not_false, Bool.false_eq_true, if_false,
        if_true, reduceIte, List.map_cons, List.sum_cons]
      omega

theorem regionTotalWithout_split (rows : List (CountryRow × ElecRow)) (r : String) :
    regionTotalWithout rows r =
      regionTotalWithout (rows.filter (fun ce => !(is_aggregate ce.1.country_name))) r +
      regionTotalWithout (rows.filter (fun ce => is_aggregate ce.1.country_name)) r := by
  unfold regionTotalWithout
  rw [List.filter_comm (fun ce => regionKey ce == r)
        (fun ce => !(is_aggregate ce.1.country_name)) rows,
      List.filter_comm (fun ce => regionKey ce == r)
        (fun ce => is_aggregate ce.1.country_name) rows]
  exact (sum_map_filter_split (rows.filter (fun ce => regionKey ce == r))
    (fun ce => is_aggregate ce.1.country_name) _).symm

theorem regionTotalPop_split (popT : Option (List PopRow)) (hasPopCol : Bool)
    (rows : List (CountryRow × ElecRow)) (r : String) :
    regionTotalPop popT hasPopCol rows r =
      regionTotalPop popT hasPopCol
        (rows.filter (fun ce => !(is_aggregate ce.1.country_name))) r +
      regionTotalPop popT hasPopCol
        (rows.filter (fun ce => is_aggregate ce.1.country_name)) r := by
  unfold regionTotalPop
  rw [List.filter_comm (fun ce => regionKey ce == r)
        (fun ce => !(is_aggregate ce.1.country_name)) rows,
      List.filter_comm (fun ce => regionKey ce == r)
        (fun ce => is_aggregate ce.1.country_name) rows]
  exact (sum_map_filter_split (rows.filter (fun ce => regionKey ce == r))
    (fun ce => is_aggregate ce.1.country_name) _).symm

/-- C2 counterexample: in `c2Store`, region "Earth" holds the aggregate
entity "World" (1000 people, all without access) and the country "Kenya"
(1000 people, all with access).  `query_regional_comparison` reports 50.00
for "Earth" — the World rows were summed like any others — whereas the
aggregate-filtered figure the claim requires is 100.00. -/
theorem c2_counterexample :
    query_regional_comparison c2Store 2000 = [("Earth", 5000)] ∧
    is_aggregate (Option.some "World") = true ∧
    accessPctH
      (regionTotalPop c2Store.pop c2Elec.hasPopCol
        ((yearJoin c2Countries c2Elec 2000).filter
          (fun ce => !(is_aggregate ce.1.country_name))) "Earth")
      (min (max (regionTotalWithout ((yearJoin c2Countries c2Elec 2000).filter
          (fun ce => !(is_aggregate ce.1.country_name))) "Earth") 0)
        (regionTotalPop c2Store.pop c2Elec.hasPopCol
          ((yearJoin c2Countries c2Elec 2000).filter
            (fun ce => !(is_aggregate ce.1.country_name))) "Earth")) = 10000 ∧
    (5000 : ℤ) ≠ 10000 := by
  refine ⟨by decide, by decide, by decide, by decide⟩

/-- C2 (amended): `query_regional_comparison` applies no aggregate filter
to country names: its per-region population and without sums range over
every joined row of the region, those of aggregate-named entities included
(the sums decompose into the non-aggregate and the aggregate
contributions); only empty region names are excluded. -/
theorem c2_regional_includes_aggregates :
    ∀ (s : Store) (year : ℤ) (r : String) (pctH : ℤ),
      (r, pctH) ∈ query_regional_comparison s year →
      r ≠ "" ∧
      ∃ cs et, s.countries = Option.some cs ∧ s.elec = Option.some et ∧
        regionTotalWithout (yearJoin cs et year) r =
          regionTotalWithout ((yearJoin cs et year).filter
            (fun ce => !(is_aggregate ce.1.country_name))) r +
          regionTotalWithout ((yearJoin cs et year).filter
            (fun ce => is_aggregate ce.1.country_name)) r ∧
        regionTotalPop s.pop et.hasPopCol (yearJoin cs et year) r =
          regionTotalPop s.pop et.hasPopCol ((yearJoin cs et year).filter
            (fun ce => !(is_aggregate ce.1.country_name))) r +
          regionTotalPop s.pop et.hasPopCol ((yearJoin cs et year).filter
            (fun ce => is_aggregate ce.1.country_name)) r := by
  intro s year r pctH hmem
  obtain ⟨cs, et, hcs, het, hentry⟩ := mem_query_regional hmem
  obtain ⟨_, hr, _, _⟩ := regionEntry_inv hentry
  exact ⟨hr, cs, et, hcs, het, regionTotalWithout_split _ _,
    regionTotalPop_split _ _ _ _⟩

theorem c2_witness :
    "Earth" ≠ "" ∧
    ∃ cs et, c2Store.countries = Option.some cs ∧ c2Store.elec = Option.some et ∧
      regionTotalWithout (yearJoin cs et 2000) "Earth" =
        regionTotalWithout ((yearJoin cs et 2000).filter
          (fun ce => !(is_aggregate ce.1.country_name))) "Earth" +
        regionTotalWithout ((yearJoin cs et 2000).filter
          (fun ce => is_aggregate ce.1.country_name)) "Earth" ∧
      regionTotalPop c2Store.pop et.hasPopCol (yearJoin cs et 2000) "Earth" =
        regionTotalPop c2Store.pop et.hasPopCol ((yearJoin cs et 2000).filter
          (fun ce => !(is_aggregate ce.1.country_name))) "Earth" +
        regionTotalPop c2Store.pop et.hasPopCol ((yearJoin cs et 2000).filter
          (fun ce => is_aggregate ce.1.country_name)) "Earth" :=
  c2_regional_includes_aggregates c2Store 2000 "Earth" 5000 (by decide)

/-- C6: for every store state, each of the five schema-resolving analytical
queries returns the empty list (rather than raising) when a logical table it
requires is absent: all five when the electricity table is missing; the four
that join the countries table when it is missing; and
`query_access_percent` (with `query_regional_comparison`) additionally when
no population source exists — no `PopulationData` table and no population
column on the electricity table. -/
theorem c6_absent_tables :
    ∀ (s : Store) (year threshold sy ey : ℤ),
      (s.elec = Option.none →
        query_high_unserved s threshold = [] ∧ query_yearly_trend s = [] ∧
        query_access_percent s year = [] ∧
        query_regional_comparison s year = [] ∧
        query_most_improved s sy ey = []) ∧
      (s.countries = Option.none →
        query_high_unserved s threshold = [] ∧
        query_access_percent s year = [] ∧
        query_regional_comparison s year = [] ∧
        query_most_improved s sy ey = []) ∧
      (∀ et, s.elec = Option.some et → et.hasPopCol = false →
        s.pop = Option.none →
        query_access_percent s year = [] ∧
        query_regional_comparison s year = []) := by
  intro s year threshold sy ey
  obtain ⟨co, el, po⟩ := s
  refine ⟨?_, ?_, ?_⟩
  · intro h
    replace h : el = Option.none := h
    subst h
    refine ⟨?_, rfl, ?_, ?_, ?_⟩ <;> cases co <;> rfl
  · intro h
    replace h : co = Option.none := h
    subst h
    refine ⟨?_, ?_, ?_, ?_⟩ <;> cases el <;> rfl
  · intro et h1 h2 h3
    replace h1 : el = Option.some et := h1
    replace h3 : po = Option.none := h3
    subst h1 h3
    obtain ⟨hpc, rows⟩ := et
    replace h2 : hpc = false := h2
    subst h2
    constructor <;> cases co <;> rfl

theorem c6_witness :
    (query_high_unserved c6StoreA 1000000 = [] ∧ query_yearly_trend c6StoreA = [] ∧
      query_access_percent c6StoreA 2000 = [] ∧
      query_regional_comparison c6StoreA 2000 = [] ∧
      query_most_improved c6StoreA 1990 2016 = []) ∧
    (query_access_percent c6StoreB 2000 = [] ∧
      query_regional_comparison c6StoreB 2000 = []) :=
  ⟨(c6_absent_tables c6StoreA 2000 1000000 1990 2016).1 rfl,
   (c6_absent_tables c6StoreB 2000 1000000 1990 2016).2.2
     ⟨false, [⟨1, 1, 2000, Option.none, Option.some 300, Option.none⟩]⟩ rfl rfl rfl⟩

theorem twoCompare_find_spec (rows : List (String × ℤ × ℤ × ℤ)) (cname : String) :
    ((∀ a ∈ rows, pyLower (pyStrip a.1) ≠ pyLower (pyStrip cname)) →
      (match rows.reverse.find?
          (fun r => pyLower (pyStrip r.1) == pyLower (pyStrip cname)) with
       | Option.some r =>
         (r.1, CVal.pct r.2.2.2, CVal.int r.2.1,
          CVal.int (max (r.2.1 - r.2.2.1) 0), CVal.int r.2.2.1)
       | Option.none => comparePlaceholder cname) = comparePlaceholder cname) ∧
    ((∃ a ∈ rows, pyLower (pyStrip a.1) = pyLower (pyStrip cname)) →
      ∃ b ∈ rows, pyLower (pyStrip b.1) = pyLower (pyStrip cname) ∧
        (match rows.reverse.find?
            (fun r => pyLower (pyStrip r.1) == pyLower (pyStrip cname)) with
         | Option.some r =>
           (r.1, CVal.pct r.2.2.2, CVal.int r.2.1,
            CVal.int (max (r.2.1 - r.2.2.1) 0), CVal.int r.2.2.1)
         | Option.none => comparePlaceholder cname) =
          (b.1, CVal.pct b.2.2.2, CVal.int b.2.1,
           CVal.int (max (b.2.1 - b.2.2.1) 0), CVal.int b.2.2.1)) := by
  cases hf : rows.reverse.find?
      (fun r => pyLower (pyStrip r.1) == pyLower (pyStrip cname)) with
  | none =>
    constructor
    · intro _
      rfl
    · intro hex
      obtain ⟨a, ha, hkey⟩ := hex
      have hall := List.find?_eq_none.mp hf a (List.mem_reverse.mpr ha)
      rw [beq_iff_eq] at hall
      exact absurd hkey hall
  | some b =>
    constructor
    · intro hnone
      have hb := List.find?_some hf
      rw [beq_iff_eq] at hb
      have hbmem := List.mem_reverse.mp (List.mem_of_find?_eq_some hf)
      exact absurd hb (hnone b hbmem)
    · intro _
      have hb := List.find?_some hf
      rw [beq_iff_eq] at hb
      have hbmem := List.mem_reverse.mp (List.mem_of_find?_eq_some hf)
      exact ⟨b, hbmem, hb, rfl⟩

/-- C8: `query_two_country_compare(year, c1, c2)` always returns exactly two
rows, one per requested name in input order; each name is matched trimmed
and case-insensitively against the `query_access_percent(year)` rows, a
found name yielding that row's stored name and metrics and a missing name
yielding the placeholder row `(name, None, "None", "None", "None")` rather
than an error. -/
theorem c8_two_country_rows :
    ∀ (s : Store) (year : ℤ) (c1 c2 : String),
      (query_two_country_compare s year c1 c2).length = 2 ∧
      ((∀ a ∈ query_access_percent s year,
          pyLower (pyStrip a.1) ≠ pyLower (pyStrip c1)) →
        (query_two_country_compare s year c1 c2).getD 0 (comparePlaceholder "") =
          comparePlaceholder c1) ∧
      ((∃ a ∈ query_access_percent s year,
          pyLower (pyStrip a.1) = pyLower (pyStrip c1)) →
        ∃ b ∈ query_access_percent s year,
          pyLower (pyStrip b.1) = pyLower (pyStrip c1) ∧
          (query_two_country_compare s year c1 c2).getD 0 (comparePlaceholder "") =
            (b.1, CVal.pct b.2.2.2, CVal.int b.2.1,
             CVal.int (max (b.2.1 - b.2.2.1) 0), CVal.int b.2.2.1)) ∧
      ((∀ a ∈ query_access_percent s year,
          pyLower (pyStrip a.1) ≠ pyLower (pyStrip c2)) →
        (query_two_country_compare s year c1 c2).getD 1 (comparePlaceholder "") =
          comparePlaceholder c2) ∧
      ((∃ a ∈ query_access_percent s year,
          pyLower (pyStrip a.1) = pyLower (pyStrip c2)) →
        ∃ b ∈ query_access_percent s year,
          pyLower (pyStrip b.1) = pyLower (pyStrip c2) ∧
          (query_two_country_compare s year c1 c2).getD 1 (comparePlaceholder "") =
            (b.1, CVal.pct b.2.2.2, CVal.int b.2.1,
             CVal.int (max (b.2.1 - b.2.2.1) 0), CVal.int b.2.2.1)) := by
  intro s year c1 c2
  exact ⟨rfl,
    (twoCompare_find_spec (query_access_percent s year) c1).1,
    (twoCompare_find_spec (query_access_percent s year) c1).2,
    (twoCompare_find_spec (query_access_percent s year) c2).1,
    (twoCompare_find_spec (query_access_percent s year) c2).2⟩

theorem c8_witness :
    (query_two_country_compare c8Store 2000 "  KENYA " "Wakanda").length = 2 ∧
    (query_two_country_compare c8Store 2000 "  KENYA " "Wakanda").getD 1
      (comparePlaceholder "") = comparePlaceholder "Wakanda" ∧
    ∃ b ∈ query_access_percent c8Store 2000,
      pyLower (pyStrip b.1) = pyLower (pyStrip "  KENYA ") ∧
      (query_two_country_compare c8Store 2000 "  KENYA " "Wakanda").getD 0
        (comparePlaceholder "") =
        (b.1, CVal.pct b.2.2.2, CVal.int b.2.1,
         CVal.int (max (b.2.1 - b.2.2.1) 0), CVal.int b.2.2.1) :=
  ⟨(c8_two_country_rows c8Store 2000 "  KENYA " "Wakanda").1,
   (c8_two_country_rows c8Store 2000 "  KENYA " "Wakanda").2.2.2.1 (by decide),
   (c8_two_country_rows c8Store 2000 "  KENYA " "Wakanda").2.2.1 (by decide)⟩

theorem mostImprovedEntry_inv {s : Store} {et : ElecTable} {sy ey : ℤ}
    {c : CountryRow} {name : String} {aSH aEH impH : ℤ}
    (h : mostImprovedEntry s et sy ey c = Option.some (name, aSH, aEH, impH)) :
    c.country_name = Option.some name ∧
    ∃ ps pe, (get_pop_without s et c.country_id sy).1 = Option.some ps ∧
      (get_pop_without s et c.country_id ey).1 = Option.some pe ∧
      0 < ps ∧ 0 < pe ∧
      aSH = accessPctH ps
        (min (max ((get_pop_without s et c.country_id sy).2.getD 0) 0) ps) ∧
      aEH = accessPctH pe
        (min (max ((get_pop_without s et c.country_id ey).2.getD 0) 0) pe) ∧
      impH = aEH - aSH := by
  unfold mostImprovedEntry at h
  split at h
  · exact absurd h (by simp)
  · rename_i nm hn
    split_ifs at h with he ha
    split at h
    · rename_i ps pe hps hpe
      split_ifs at h with hle
      simp only [Option.some.injEq, Prod.mk.injEq] at h
      obtain ⟨h1, h2, h3, h4⟩ := h
      subst h1 h2 h3
      refine ⟨hn, ps, pe, hps, hpe, by omega, by omega, rfl, rfl, h4.symm⟩
    · exact absurd h (by simp)

theorem mem_query_most_improved {s : Store} {sy ey : ℤ}
    {row : String × ℤ × ℤ × ℤ} (h : row ∈ query_most_improved s sy ey) :
    ∃ cs et c, s.countries = Option.some cs ∧ s.elec = Option.some et ∧
      c ∈ cs ∧ mostImprovedEntry s et sy ey c = Option.some row := by
  cases hse : s.elec with
  | none =>
    rw [query_most_improved, hse] at h
    exact absurd h (List.not_mem_nil _)
  | some et =>
    cases hsc : s.countries with
    | none =>
      rw [query_most_improved, hse, hsc] at h
      exact absurd h (List.not_mem_nil _)
    | some cs =>
      rw [query_most_improved, hse, hsc] at h
      rw [mem_insertionSort] at h
      obtain ⟨c, hc, hentry⟩ := List.mem_filterMap.mp h
      rw [mem_insertionSort] at hc
      exact ⟨cs, et, c, rfl, rfl, hc, hentry⟩

theorem mostImprovedEntry_none_of_fail {s : Store} {et : ElecTable}
    {sy ey : ℤ} {c : CountryRow}
    (hfail : (get_pop_without s et c.country_id sy).1 = Option.none ∨
      (get_pop_without s et c.country_id ey).1 = Option.none ∨
      (∃ p', (get_pop_without s et c.country_id sy).1 = Option.some p' ∧
        p' ≤ 0) ∨
      (∃ p', (get_pop_without s et c.country_id ey).1 = Option.some p' ∧
        p' ≤ 0)) :
    mostImprovedEntry s et sy ey c = Option.none := by
  cases hres : mostImprovedEntry s et sy ey c with
  | none => rfl
  | some row =>
    obtain ⟨name, aSH, aEH, impH⟩ := row
    obtain ⟨-, ps, pe, hps, hpe, hps0, hpe0, -, -, -⟩ :=
      mostImprovedEntry_inv hres
    rcases hfail with h1 | h1 | ⟨p', hp', hple⟩ | ⟨p', hp', hple⟩
    · rw [h1] at hps
      exact Option.noConfusion hps
    · rw [h1] at hpe
      exact Option.noConfusion hpe
    · rw [hp'] at hps
      have : p' = ps := Option.some.inj hps
      omega
    · rw [hp'] at hpe
      have : p' = pe := Option.some.inj hpe
      omega

/-- C5: every row of `query_most_improved(start_year, end_year)` is
`(country, access_start, access_end, improvement)` with
`improvement = round(access_end - access_start, 2)` and each year's access
percentage computed independently with the clamped formula from that year's
own population/without lookup (percentages as integer hundredths); a
country whose population lookup is missing or non-positive for either year
contributes no row (under the schema's unique-name constraint its name
appears in no row at all); the result is sorted descending by improvement;
and the default call uses the 1990-2016 window. -/
theorem c5_most_improved :
    ∀ (s : Store) (sy ey : ℤ),
      (∀ name aSH aEH impH,
        (name, aSH, aEH, impH) ∈ query_most_improved s sy ey →
        ((impH : ℚ)) / 100 =
          round2 (((aEH : ℚ)) / 100 - ((aSH : ℚ)) / 100) ∧
        ∃ cs et c, s.countries = Option.some cs ∧ s.elec = Option.some et ∧
          c ∈ cs ∧ c.country_name = Option.some name ∧
          ∃ ps pe,
            (get_pop_without s et c.country_id sy).1 = Option.some ps ∧
            (get_pop_without s et c.country_id ey).1 = Option.some pe ∧
            0 < ps ∧ 0 < pe ∧
            ((aSH : ℚ)) / 100 = round2 ((((ps : ℚ)) -
              ((min (max ((get_pop_without s et c.country_id sy).2.getD 0) 0)
                ps : ℤ) : ℚ)) / ((ps : ℚ)) * 100) ∧
            ((aEH : ℚ)) / 100 = round2 ((((pe : ℚ)) -
              ((min (max ((get_pop_without s et c.country_id ey).2.getD 0) 0)
                pe : ℤ) : ℚ)) / ((pe : ℚ)) * 100)) ∧
      (∀ cs et, s.countries = Option.some cs → s.elec = Option.some et →
        ∀ c ∈ cs, ∀ name, c.country_name = Option.some name →
        (∀ c' ∈ cs, c'.country_name = Option.some name → c' = c) →
        ((get_pop_without s et c.country_id sy).1 = Option.none ∨
         (get_pop_without s et c.country_id ey).1 = Option.none ∨
         (∃ p', (get_pop_without s et c.country_id sy).1 = Option.some p' ∧
           p' ≤ 0) ∨
         (∃ p', (get_pop_without s et c.country_id ey).1 = Option.some p' ∧
           p' ≤ 0)) →
        ∀ row ∈ query_most_improved s sy ey, row.1 ≠ name) ∧
      (query_most_improved s sy ey).Pairwise
        (fun a b => b.2.2.2 ≤ a.2.2.2) ∧
      query_most_improved_default s = query_most_improved s 1990 2016 := by
  intro s sy ey
  refine ⟨?_, ?_, ?_, rfl⟩
  · intro name aSH aEH impH hmem
    obtain ⟨cs, et, c, hcs, het, hc, hentry⟩ := mem_query_most_improved hmem
    obtain ⟨hn, ps, pe, hps, hpe, hps0, hpe0, haS, haE, himp⟩ :=
      mostImprovedEntry_inv hentry
    constructor
    · have hcast : ((aEH : ℚ)) / 100 - ((aSH : ℚ)) / 100 =
          (((aEH - aSH : ℤ)) : ℚ) / 100 := by
        push_cast
        ring
      rw [hcast, round2_hundredth, himp]
    · refine ⟨cs, et, c, hcs, het, hc, hn, ps, pe, hps, hpe, hps0, hpe0, ?_, ?_⟩
      · rw [haS]
        exact accessPctH_eq hps0
      · rw [haE]
        exact accessPctH_eq hpe0
  · intro cs et hcs het c hc name hname huniq hfail row hrow
    obtain ⟨cs', et', c', hcs', het', hc', hentry⟩ := mem_query_most_improved hrow
    rw [hcs] at hcs'
    rw [het] at het'
    obtain rfl : cs = cs' := Option.some.inj hcs'
    obtain rfl : et = et' := Option.some.inj het'
    obtain ⟨name', aSH, aEH, impH⟩ := row
    intro hcontra
    simp only at hcontra
    subst hcontra
    have hn' := (mostImprovedEntry_inv hentry).1
    have hceq : c' = c := huniq c' hc' hn'
    subst hceq
    rw [mostImprovedEntry_none_of_fail hfail] at hentry
    exact Option.noConfusion hentry
  · cases hse : s.elec with
    | none =>
      rw [query_most_improved, hse]
      exact List.Pairwise.nil
    | some et =>
      cases hsc : s.countries with
      | none =>
        rw [query_most_improved, hse, hsc]
        exact List.Pairwise.nil
      | some cs =>
        rw [query_most_improved, hse, hsc]
        have hp := @pairwise_insertionSort (String × ℤ × ℤ × ℤ)
          (fun a b => decide (b.2.2.2 ≤ a.2.2.2))
          (fun a b c hab hbc => decide_eq_true_iff.mpr
            (le_trans (of_decide_eq_true hbc) (of_decide_eq_true hab)))
          (fun a b => by
            rcases le_total b.2.2.2 a.2.2.2 with h | h
            · exact Or.inl (decide_eq_true_iff.mpr h)
            · exact Or.inr (decide_eq_true_iff.mpr h))
          ((insertionSort nameLe cs).filterMap (mostImprovedEntry s et sy ey))
        exact hp.imp (fun hxy => of_decide_eq_true hxy)

theorem c5_witness :
    ((((2550 : ℤ)) : ℚ) / 100 =
        round2 ((((6550 : ℤ)) : ℚ) / 100 - (((4000 : ℤ)) : ℚ) / 100) ∧
      ∃ cs et c, c5Store.countries = Option.some cs ∧
        c5Store.elec = Option.some et ∧
        c ∈ cs ∧ c.country_name = Option.some "Kenya" ∧
        ∃ ps pe,
          (get_pop_without c5Store et c.country_id 1990).1 = Option.some ps ∧
          (get_pop_without c5Store et c.country_id 2016).1 = Option.some pe ∧
          0 < ps ∧ 0 < pe ∧
          (((4000 : ℤ)) : ℚ) / 100 = round2 ((((ps : ℚ)) -
            ((min (max ((get_pop_without c5Store et c.country_id 1990).2.getD 0) 0)
              ps : ℤ) : ℚ)) / ((ps : ℚ)) * 100) ∧
          (((6550 : ℤ)) : ℚ) / 100 = round2 ((((pe : ℚ)) -
            ((min (max ((get_pop_without c5Store et c.country_id 2016).2.getD 0) 0)
              pe : ℤ) : ℚ)) / ((pe : ℚ)) * 100)) ∧
    (∀ row ∈ query_most_improved c5Store 1990 2016, row.1 ≠ "Chad") :=
  ⟨(c5_most_improved c5Store 1990 2016).1 "Kenya" 4000 6550 2550 (by decide),
   (c5_most_improved c5Store 1990 2016).2.1
     [⟨1, Option.some "Kenya", Option.none⟩, ⟨2, Option.some "Chad", Option.none⟩]
     ⟨true, [⟨1, 1, 1990, Option.some 1000, Option.some 600, Option.none⟩,
             ⟨2, 1, 2016, Option.some 1000, Option.some 345, Option.none⟩,
             ⟨3, 2, 1990, Option.some 500, Option.some 100, Option.none⟩]⟩
     rfl rfl ⟨2, Option.some "Chad", Option.none⟩ (by decide) "Chad" rfl
     (by decide)
     (Or.inr (Or.inl (by decide)))⟩
